import Mathlib

/-!
Verification development for the KubeHost deployment orchestrator.

The Python sources are embedded shallowly as Lean functions over `List Char`
(strings), `Option` (missing files / failed queries) and explicit cluster
oracles (`K8sResource → Bool` for `kubectl apply` outcomes, `Nat → Option
(Nat × Nat)` for readiness polls).  File-system and subprocess effects are
replaced by these explicit inputs; everything else follows the Python line
by line.
-/

set_option linter.unusedVariables false

/-- The double-quote character `"` (written by code point so that quote
characters never appear in the Lean source as literals). -/
def dquote : Char := Char.ofNat 34

/-- The single-quote character. -/
def squote : Char := Char.ofNat 39

/-- ASCII lower-case letter, the `a-z` part of the regex class `[a-z0-9-]`
used by `sanitize_name` in src/utils/deploy_to_kub.py. -/
def isAsciiLower (c : Char) : Bool := 97 ≤ c.toNat && c.toNat ≤ 122

/-- ASCII upper-case letter `A-Z`. -/
def isAsciiUpper (c : Char) : Bool := 65 ≤ c.toNat && c.toNat ≤ 90

/-- ASCII digit `0-9`. -/
def isAsciiDigit (c : Char) : Bool := 48 ≤ c.toNat && c.toNat ≤ 57

/-- ASCII alphanumeric character. -/
def isAsciiAlnum (c : Char) : Bool := isAsciiLower c || isAsciiUpper c || isAsciiDigit c

/-- Membership in the regex character class `[a-z0-9-]` of
`re.sub(r'[^a-z0-9-]', '-', name)`. -/
def allowedChar (c : Char) : Bool := isAsciiLower c || isAsciiDigit c || c == '-'

/-- One character of `re.sub(r'[^a-z0-9-]', '-', name)`: characters outside
`[a-z0-9-]` become `'-'`. -/
def replaceDisallowed (c : Char) : Char := if allowedChar c then c else '-'

/-- Python `str.lower()` on the ASCII range (the only range that matters
here: every non-ASCII character is sent to `'-'` by `replaceDisallowed`
afterwards, whether or not it was case-folded first). -/
def lowerChar (c : Char) : Char :=
  if isAsciiUpper c then Char.ofNat (c.toNat + 32) else c

/-- The relation "this adjacent pair is not a double dash"; collapsing
`-+` to `-` is exactly removing every element that breaks this chain. -/
def dashOk (a b : Char) : Prop := ¬(a = '-' ∧ b = '-')

instance : DecidableRel dashOk :=
  fun a b => inferInstanceAs (Decidable (¬(a = '-' ∧ b = '-')))

/-- `re.sub(r'-+', '-', name)`: each maximal run of dashes collapses to a
single dash, i.e. every dash immediately following a dash is removed. -/
def collapseDashes (l : List Char) : List Char := l.destutter dashOk

/-- Python `str.strip(chars)`: remove the characters satisfying `p` from
both ends of the string. -/
def stripBoth (p : Char → Bool) (l : List Char) : List Char :=
  ((l.dropWhile p).reverse.dropWhile p).reverse

/-- The whitespace characters removed by Python `str.strip()` (ASCII part:
space, tab, newline, carriage return, vertical tab, form feed). -/
def isPyWS (c : Char) : Bool :=
  c == ' ' || c == '\t' || c == '\n' || c == '\r' || c == Char.ofNat 11 || c == Char.ofNat 12

/-- Python `str.strip()` with no argument. -/
def pyStrip (l : List Char) : List Char := stripBoth isPyWS l

/-- `sanitize_name` (src/utils/deploy_to_kub.py lines 10-16): lower-case,
replace characters outside `[a-z0-9-]` by `'-'`, collapse dash runs, strip
dashes from both ends, then truncate to 63 characters. -/
def sanitize_name (name : List Char) : List Char :=
  (stripBoth (fun c => c == '-')
    (collapseDashes ((name.map lowerChar).map replaceDisallowed))).take 63

/-- `int()` on a string of ASCII digits. -/
def digitsToNat (ds : List Char) : Nat :=
  ds.foldl (fun n c => 10 * n + (c.toNat - 48)) 0

/-- Attempt to match the regex `EXPOSE\s+(\d+)` (with `re.IGNORECASE`) at
the head of `l`; on success return `int(group(1))`.  Because `\s` and `\d`
are disjoint, the greedy match is: the literal, then a nonempty whitespace
run, then a nonempty digit run. -/
def matchExposeHere (l : List Char) : Option Nat :=
  if (l.take 6).map lowerChar = "expose".toList then
    let rest := l.drop 6
    let ws := rest.takeWhile isPyWS
    let ds := (rest.dropWhile isPyWS).takeWhile isAsciiDigit
    if ws ≠ [] ∧ ds ≠ [] then some (digitsToNat ds) else none
  else none

/-- `re.search(r'EXPOSE\s+(\d+)', content, re.IGNORECASE)`: the leftmost
position where the pattern matches wins. -/
def findExpose : List Char → Option Nat
  | [] => none
  | c :: rest =>
    match matchExposeHere (c :: rest) with
    | some n => some n
    | none => findExpose rest

/-- `extract_port_from_dockerfile` (src/utils/deploy_to_kub.py lines
45-55).  `none` for the Dockerfile argument models a missing file (or a
missing `app_path` in the caller); `some content` a readable file. -/
def extract_port_from_dockerfile : Option (List Char) → Option Nat
  | none => none
  | some content => findExpose content

/-- The type-based port defaults of `deploy_to_k8s` (line 212):
`3000 if app_type in ["nodejs", "nextjs"] else 8000 if app_type == "python" else 80`. -/
def default_port (app_type : List Char) : Nat :=
  if app_type = "nodejs".toList ∨ app_type = "nextjs".toList then 3000
  else if app_type = "python".toList then 8000
  else 80

/-- Port resolution in `deploy_to_k8s` (lines 205-212): the Dockerfile
`EXPOSE` value if one is found, otherwise the type default. -/
def resolve_port (dockerfile : Option (List Char)) (app_type : List Char) : Nat :=
  match extract_port_from_dockerfile dockerfile with
  | some p => p
  | none => default_port app_type

/-- `line.split('=', 1)`: split at the first occurrence of `c`, `none`
when `c` does not occur. -/
def splitFirst (c : Char) : List Char → Option (List Char × List Char)
  | [] => none
  | x :: xs =>
    if x = c then some ([], xs)
    else
      match splitFirst c xs with
      | some (a, b) => some (x :: a, b)
      | none => none

/-- `value.strip().strip('"').strip("'")`: whitespace, then all leading and
trailing double quotes, then all leading and trailing single quotes. -/
def trim_value (v : List Char) : List Char :=
  stripBoth (fun c => c == squote) (stripBoth (fun c => c == dquote) (pyStrip v))

/-- One iteration of the parsing loop shared by `extract_env_vars` (lines
63-72) and the inline `env_vars` parsing in `deploy_to_k8s` (lines
222-229): the entry a single line contributes, if any. -/
def parse_env_line (raw : List Char) : Option (List Char × List Char) :=
  let line := pyStrip raw
  if line ≠ [] ∧ '=' ∈ line ∧ line.head? ≠ some '#' then
    match splitFirst '=' line with
    | some (k, v) =>
      let key := pyStrip k
      let value := trim_value v
      if key ≠ [] ∧ value ≠ [] then some (key, value) else none
    | none => none
  else none

/-- `extract_env_vars` (src/utils/deploy_to_kub.py lines 57-74), applied to
the raw text: iterate over the newline-separated lines, appending each
accepted `KEY=VALUE` entry to the accumulator. -/
def extract_env_vars (s : List Char) : List (List Char × List Char) :=
  (s.splitOn '\n').foldl
    (fun acc raw =>
      match parse_env_line raw with
      | some kv => acc ++ [kv]
      | none => acc) []

/-- The eight Kubernetes resources synthesized by `deploy_to_k8s`, named
by their manifest `kind`. -/
inductive K8sResource
  | Namespace
  | ResourceQuota
  | LimitRange
  | Deployment
  | Service
  | Ingress
  | HorizontalPodAutoscaler
  | NetworkPolicy
deriving DecidableEq

/-- `apply_commands` (src/utils/deploy_to_kub.py lines 504-513): each
resource with its `should_check` flag (`False` only for the autoscaler,
"May fail without metrics-server"). -/
def apply_commands : List (K8sResource × Bool) :=
  [(.Namespace, true), (.ResourceQuota, true), (.LimitRange, true), (.Deployment, true),
   (.Service, true), (.Ingress, true), (.HorizontalPodAutoscaler, false), (.NetworkPolicy, true)]

/-- The fixed manifest application order. -/
def manifest_order : List K8sResource := apply_commands.map Prod.fst

/-- Result of the manifest-apply loop: the resources whose `kubectl apply`
was attempted, in order, and the required resource whose failure aborted
the loop (if any). -/
structure ApplyOutcome where
  attempted : List K8sResource
  aborted : Option K8sResource
deriving DecidableEq

/-- The apply loop of `deploy_to_k8s` (lines 515-530).  `ok r` models
"`kubectl apply` for `r` returned 0".  A failing apply with
`should_check = True` raises (aborting the loop); with
`should_check = False` it only prints a warning and the loop continues. -/
def applyLoop (ok : K8sResource → Bool) : List (K8sResource × Bool) → ApplyOutcome
  | [] => ⟨[], none⟩
  | (r, check) :: rest =>
    if !ok r && check then ⟨[r], some r⟩
    else
      let o := applyLoop ok rest
      ⟨r :: o.attempted, o.aborted⟩

/-- One container status as read by `get_pod_errors`: the optional
`waiting` and `terminated` states, each a `(reason, message)` pair. -/
structure ContainerState where
  waiting : Option (List Char × List Char)
  terminated : Option (List Char × List Char)
deriving DecidableEq

/-- One pod condition as read by `get_pod_errors` (`type`, `status`,
`message`; the JSON key `type` is a Lean keyword, hence `ctype`). -/
structure PodCondition where
  ctype : List Char
  status : List Char
  message : List Char
deriving DecidableEq

/-- One pod of the app, as returned by the `kubectl get pods` JSON. -/
structure PodInfo where
  podName : List Char
  containerStates : List ContainerState
  conditions : List PodCondition
deriving DecidableEq

/-- The diagnostic line contributed by one container status
(src/utils/deploy_to_kub.py lines 117-126). -/
def containerError (podName : List Char) (cs : ContainerState) : Option (List Char) :=
  match cs.waiting with
  | some (reason, message) =>
    some ("Pod ".toList ++ podName ++ ": Waiting - ".toList ++ reason ++ ": ".toList ++ message)
  | none =>
    match cs.terminated with
    | some (reason, message) =>
      some ("Pod ".toList ++ podName ++ ": Terminated - ".toList ++ reason ++ ": ".toList ++ message)
    | none => none

/-- The diagnostic line contributed by one pod condition (lines 129-131):
only conditions with status `"False"` and type `Ready` or `PodScheduled`. -/
def conditionError (podName : List Char) (c : PodCondition) : Option (List Char) :=
  if c.status = "False".toList ∧ (c.ctype = "Ready".toList ∨ c.ctype = "PodScheduled".toList) then
    some ("Pod ".toList ++ podName ++ ": ".toList ++ c.ctype ++ " - ".toList ++ c.message)
  else none

/-- All diagnostic lines of one pod: container statuses first, then pod
conditions, as in the Python loop. -/
def podErrors (p : PodInfo) : List (List Char) :=
  p.containerStates.filterMap (containerError p.podName) ++
    p.conditions.filterMap (conditionError p.podName)

/-- `get_pod_errors` (src/utils/deploy_to_kub.py lines 102-136) on the
pods of the app. -/
def get_pod_errors (pods : List PodInfo) : List (List Char) :=
  (pods.map podErrors).flatten

/-- The fixed polling interval of `wait_for_deployment`: `time.sleep(5)`. -/
def pollInterval : Nat := 5

/-- The readiness timeout passed by `deploy_to_k8s`: `timeout=180`. -/
def waitTimeoutSecs : Nat := 180

/-- Number of polls within the timeout window. -/
def maxPolls : Nat := waitTimeoutSecs / pollInterval

/-- One poll's verdict (lines 152-170): the poll succeeds when the
deployment query returned both counts and
`ready_int >= desired_int and ready_int >= 1`.  `none` models a failed
query or empty jsonpath output. -/
def readyCond : Option (Nat × Nat) → Bool
  | some (ready, desired) => if desired ≤ ready ∧ 1 ≤ ready then true else false
  | none => false

/-- The polling loop of `wait_for_deployment` (lines 144-178): return
`true` at the first satisfied poll, `false` when the polls are exhausted.
`obs i` is the observation of the `i`-th poll. -/
def waitLoop (obs : Nat → Option (Nat × Nat)) : Nat → Nat → Bool
  | _, 0 => false
  | i, fuel + 1 => if readyCond (obs i) then true else waitLoop obs (i + 1) fuel

/-- `wait_for_deployment` (src/utils/deploy_to_kub.py lines 138-185), with
real time abstracted to poll indices: a 180 s timeout at one poll per 5 s
interval gives `maxPolls = 36` polls. -/
def wait_for_deployment (obs : Nat → Option (Nat × Nat)) : Bool :=
  waitLoop obs 0 maxPolls

/-- Health-check path selection in `deploy_to_k8s` (lines 266-272). -/
def health_check_path (app_type : List Char) : List Char :=
  if app_type = "python".toList then "/health".toList
  else if app_type = "nodejs".toList ∨ app_type = "nextjs".toList then "/".toList
  else "/".toList

/-- The values computed by the pure prefix of `deploy_to_k8s` (lines
198-232 and 266-272) before any cluster interaction.  `ns` is the
Python `namespace` variable (a Lean keyword). -/
structure DeployPlan where
  appName : List Char
  ns : List Char
  port : Nat
  healthCheckPath : List Char
  envList : List (List Char × List Char)
deriving DecidableEq

/-- The pure planning prefix of `deploy_to_k8s`: sanitize the name, derive
the namespace, resolve the port, pick the health path, parse the
environment text.  The code performs no validation of the sanitized
name. -/
def deploy_plan (app_name app_type : List Char) (dockerfile : Option (List Char))
    (env_raw : Option (List Char)) : DeployPlan :=
  let an := sanitize_name app_name
  { appName := an
    ns := "app-".toList ++ an
    port := resolve_port dockerfile app_type
    healthCheckPath := health_check_path app_type
    envList :=
      match env_raw with
      | some s => extract_env_vars s
      | none => [] }

/-- The failure modes of the embedded `deploy_to_k8s` pipeline. -/
inductive DeployError
  | manifestApplyFailed (resource : K8sResource)
  | deploymentNotReady (podDiagnostics : List (List Char)) (statusDump : List Char)
deriving DecidableEq

/-- Decidable equality of `Except` results, for evaluating concrete runs. -/
instance {e a : Type} [DecidableEq e] [DecidableEq a] : DecidableEq (Except e a) := fun x y =>
  match x, y with
  | .error u, .error v =>
    if h : u = v then .isTrue (by rw [h]) else .isFalse (fun hc => h (by cases hc; rfl))
  | .ok u, .ok v =>
    if h : u = v then .isTrue (by rw [h]) else .isFalse (fun hc => h (by cases hc; rfl))
  | .error _, .ok _ => .isFalse (fun hc => by cases hc)
  | .ok _, .error _ => .isFalse (fun hc => by cases hc)

/-- The cluster's behaviour, made explicit: per-resource `kubectl apply`
success, the readiness-poll observations, the final pod snapshot and the
`kubectl describe deployment` output. -/
structure ClusterState where
  applyOk : K8sResource → Bool
  obs : Nat → Option (Nat × Nat)
  pods : List PodInfo
  statusDump : List Char

/-- `deploy_to_k8s` (src/utils/deploy_to_kub.py lines 187-556): plan,
apply the manifests in order (aborting on a required-resource failure),
wait for readiness, and either return the subdomain URL or raise with the
pod diagnostics plus the deployment status dump (lines 536-551).  The
bootstrap and image-load steps (lines 234-263) either succeed or raise
independently of the properties studied here and are not modelled; the
cluster's manifest and poll behaviour is the explicit `ClusterState`. -/
def deploy_to_k8s (app_name image_tag app_type : List Char)
    (dockerfile : Option (List Char)) (env_raw : Option (List Char))
    (c : ClusterState) : Except DeployError (List Char) :=
  let plan := deploy_plan app_name app_type dockerfile env_raw
  match (applyLoop c.applyOk apply_commands).aborted with
  | some r => .error (.manifestApplyFailed r)
  | none =>
    if wait_for_deployment c.obs then
      .ok ("http://".toList ++ plan.appName ++ ".localhost".toList)
    else
      .error (.deploymentNotReady (get_pod_errors c.pods) c.statusDump)

/-- Outcome of the `docker build` subprocess in `build_docker_image`. -/
inductive DockerBuildResult
  | ok
  | timedOut
  | failed (stderr : List Char)
deriving DecidableEq

/-- The image tag computed by `build_docker_image`
(src/utils/build_docker_image.py line 115):
`image_tag = f"gitdeploy/{app_name}:latest"`. -/
def build_image_tag (app_name : List Char) : List Char :=
  "gitdeploy/".toList ++ app_name ++ ":latest".toList

/-- `build_docker_image` (src/utils/build_docker_image.py lines 113-161):
on a successful `docker build` the tag is returned (the `minikube image
load` step never changes the return value); a timeout or non-zero exit
raises. -/
def build_docker_image (app_name : List Char) (buildResult : DockerBuildResult) :
    Except (List Char) (List Char) :=
  match buildResult with
  | .ok => .ok (build_image_tag app_name)
  | .timedOut => .error "Docker build timed out after 10 minutes".toList
  | .failed stderr => .error ("Docker build failed: ".toList ++ stderr)

/-- The namespace derived in `deploy_to_k8s` (line 201):
`namespace = f"app-{app_name}"` after sanitization. -/
def app_namespace (app_name : List Char) : List Char :=
  "app-".toList ++ sanitize_name app_name

/-- `detect_app_type` (src/utils/detect_app_type.py): marker files in
fixed priority order.  `hasFile f` models `os.path.exists(path/f)`. -/
def detect_app_type (hasFile : List Char → Bool) : List Char :=
  if hasFile "package.json".toList then "nodejs".toList
  else if hasFile "requirements.txt".toList || hasFile "pyproject.toml".toList then
    "python".toList
  else if hasFile "index.html".toList then "static".toList
  else "unknown".toList

/-! ## Generic list lemmas -/

theorem mem_of_mem_dropWhile {p : Char → Bool} :
    ∀ {l : List Char} {c : Char}, c ∈ l.dropWhile p → c ∈ l := by
  intro l
  induction l with
  | nil => intro c h; simp at h
  | cons a t ih =>
    intro c h
    by_cases ha : p a
    · rw [List.dropWhile_cons_of_pos ha] at h
      exact List.mem_cons_of_mem _ (ih h)
    · rwa [List.dropWhile_cons_of_neg ha] at h

theorem mem_dropWhile_of_not {p : Char → Bool} :
    ∀ {l : List Char} {c : Char}, c ∈ l → p c = false → c ∈ l.dropWhile p := by
  intro l
  induction l with
  | nil => intro c h; simp at h
  | cons a t ih =>
    intro c h hc
    by_cases ha : p a
    · rw [List.dropWhile_cons_of_pos ha]
      rcases List.mem_cons.mp h with rfl | h
      · rw [ha] at hc; cases hc
      · exact ih h hc
    · rwa [List.dropWhile_cons_of_neg ha]

theorem head?_dropWhile_false {p : Char → Bool} :
    ∀ {l : List Char} {c : Char}, (l.dropWhile p).head? = some c → p c = false := by
  intro l
  induction l with
  | nil => intro c h; simp at h
  | cons a t ih =>
    intro c h
    by_cases ha : p a
    · rw [List.dropWhile_cons_of_pos ha] at h
      exact ih h
    · rw [List.dropWhile_cons_of_neg ha] at h
      simp only [List.head?_cons, Option.some.injEq] at h
      subst h
      exact Bool.eq_false_iff.mpr ha

theorem getLast?_dropWhile_of_ne_nil {p : Char → Bool} :
    ∀ {l : List Char}, l.dropWhile p ≠ [] → (l.dropWhile p).getLast? = l.getLast? := by
  intro l
  induction l with
  | nil => intro h; simp at h
  | cons a t ih =>
    intro h
    by_cases ha : p a
    · rw [List.dropWhile_cons_of_pos ha] at h ⊢
      rw [ih h]
      have ht : t ≠ [] := by
        intro he; rw [he] at h; simp at h
      obtain ⟨b, u, rfl⟩ := List.exists_cons_of_ne_nil ht
      simp
    · rw [List.dropWhile_cons_of_neg ha]

theorem mem_of_mem_stripBoth {p : Char → Bool} {l : List Char} {c : Char}
    (h : c ∈ stripBoth p l) : c ∈ l := by
  unfold stripBoth at h
  rw [List.mem_reverse] at h
  have h1 := mem_of_mem_dropWhile h
  rw [List.mem_reverse] at h1
  exact mem_of_mem_dropWhile h1

theorem mem_stripBoth_of_not {p : Char → Bool} {l : List Char} {c : Char}
    (h : c ∈ l) (hc : p c = false) : c ∈ stripBoth p l := by
  unfold stripBoth
  rw [List.mem_reverse]
  exact mem_dropWhile_of_not (List.mem_reverse.mpr (mem_dropWhile_of_not h hc)) hc

theorem head?_stripBoth_false {p : Char → Bool} {l : List Char} {c : Char}
    (h : (stripBoth p l).head? = some c) : p c = false := by
  unfold stripBoth at h
  rw [List.head?_reverse] at h
  have hne : (l.dropWhile p).reverse.dropWhile p ≠ [] := by
    intro he; rw [he] at h; simp at h
  rw [getLast?_dropWhile_of_ne_nil hne, List.getLast?_reverse] at h
  exact head?_dropWhile_false h

theorem getLast?_stripBoth_false {p : Char → Bool} {l : List Char} {c : Char}
    (h : (stripBoth p l).getLast? = some c) : p c = false := by
  unfold stripBoth at h
  rw [List.getLast?_reverse] at h
  exact head?_dropWhile_false h

theorem dropWhile_eq_self_of_head {p : Char → Bool} {l : List Char}
    (h : ∀ c, l.head? = some c → p c = false) : l.dropWhile p = l := by
  cases l with
  | nil => rfl
  | cons a t =>
    have := h a rfl
    rw [List.dropWhile_cons_of_neg (by simp [this])]

theorem stripBoth_eq_self {p : Char → Bool} {l : List Char}
    (hh : ∀ c, l.head? = some c → p c = false)
    (hl : ∀ c, l.getLast? = some c → p c = false) : stripBoth p l = l := by
  unfold stripBoth
  rw [dropWhile_eq_self_of_head hh]
  rw [dropWhile_eq_self_of_head (by intro c hc; rw [List.head?_reverse] at hc; exact hl c hc)]
  exact List.reverse_reverse l

theorem head?_take_pos {l : List Char} {n : Nat} (hn : 0 < n) :
    (l.take n).head? = l.head? := by
  cases l with
  | nil => simp
  | cons a t =>
    obtain ⟨m, rfl⟩ := Nat.exists_eq_succ_of_ne_zero (Nat.pos_iff_ne_zero.mp hn)
    simp [List.take_succ_cons]

theorem take_ne_nil_of_ne_nil {l : List Char} {n : Nat} (h : l ≠ []) (hn : 0 < n) :
    l.take n ≠ [] := by
  cases l with
  | nil => exact absurd rfl h
  | cons a t =>
    obtain ⟨m, rfl⟩ := Nat.exists_eq_succ_of_ne_zero (Nat.pos_iff_ne_zero.mp hn)
    simp

theorem map_eq_self_of_fix {f : Char → Char} :
    ∀ {l : List Char}, (∀ c ∈ l, f c = c) → l.map f = l := by
  intro l
  induction l with
  | nil => intro _; rfl
  | cons a t ih =>
    intro h
    simp only [List.map_cons]
    rw [h a (List.mem_cons_self a t), ih (fun c hc => h c (List.mem_cons_of_mem a hc))]

/-! ## Chain lemmas for the no-double-dash invariant -/

theorem chain'_dropWhile {R : Char → Char → Prop} {p : Char → Bool} :
    ∀ {l : List Char}, l.Chain' R → (l.dropWhile p).Chain' R := by
  intro l
  induction l with
  | nil => intro h; exact h
  | cons a t ih =>
    intro h
    by_cases ha : p a
    · rw [List.dropWhile_cons_of_pos ha]
      exact ih h.tail
    · rwa [List.dropWhile_cons_of_neg ha]

theorem dashOk_symm {a b : Char} (h : dashOk a b) : dashOk b a := by
  intro ⟨h1, h2⟩
  exact h ⟨h2, h1⟩

theorem chain'_dashOk_reverse {l : List Char} (h : l.Chain' dashOk) :
    l.reverse.Chain' dashOk := by
  rw [List.chain'_reverse]
  exact h.imp (fun a b hab => dashOk_symm hab)

theorem chain'_stripBoth {p : Char → Bool} {l : List Char} (h : l.Chain' dashOk) :
    (stripBoth p l).Chain' dashOk := by
  unfold stripBoth
  exact chain'_dashOk_reverse (chain'_dropWhile (chain'_dashOk_reverse (chain'_dropWhile h)))

/-! ## Character lemmas -/

theorem allowedChar_replaceDisallowed (c : Char) : allowedChar (replaceDisallowed c) = true := by
  unfold replaceDisallowed
  split
  · assumption
  · decide

theorem toNat_ofNat_small {m : Nat} (hm : m < 55296) : (Char.ofNat m).toNat = m := by
  have hv : m.isValidChar := Or.inl hm
  unfold Char.ofNat
  rw [dif_pos hv]
  rfl

theorem lowerChar_fix {c : Char} (h : allowedChar c = true) : lowerChar c = c := by
  have hu : isAsciiUpper c = false := by
    apply Bool.eq_false_iff.mpr
    intro hu
    simp only [isAsciiUpper, Bool.and_eq_true, decide_eq_true_eq] at hu
    simp only [allowedChar, isAsciiLower, isAsciiDigit, Bool.or_eq_true, Bool.and_eq_true,
      decide_eq_true_eq, beq_iff_eq] at h
    rcases h with (h | h) | h
    · omega
    · omega
    · subst h
      have hd : ('-' : Char).toNat = 45 := by decide
      omega
  simp [lowerChar, hu]

theorem replaceDisallowed_fix {c : Char} (h : allowedChar c = true) :
    replaceDisallowed c = c := by
  simp [replaceDisallowed, h]

/-- An alphanumeric character survives lower-casing and replacement as a
non-dash allowed character. -/
theorem alnum_survives {c : Char} (h : isAsciiAlnum c = true) :
    replaceDisallowed (lowerChar c) ≠ '-' := by
  simp only [isAsciiAlnum, isAsciiLower, isAsciiUpper, isAsciiDigit, Bool.or_eq_true,
    Bool.and_eq_true, decide_eq_true_eq] at h
  have hdash : ('-' : Char).toNat = 45 := by decide
  rcases h with (h | h) | h
  · -- lower-case letter: fixed by lowerChar, allowed, not a dash
    have hal : allowedChar c = true := by
      simp only [allowedChar, isAsciiLower, Bool.or_eq_true, Bool.and_eq_true,
        decide_eq_true_eq]
      exact Or.inl (Or.inl h)
    rw [lowerChar_fix hal, replaceDisallowed_fix hal]
    intro he
    rw [he] at h
    omega
  · -- upper-case letter: lowerChar shifts it into a-z
    have hu : isAsciiUpper c = true := by
      simp only [isAsciiUpper, Bool.and_eq_true, decide_eq_true_eq]
      exact h
    have hlc : lowerChar c = Char.ofNat (c.toNat + 32) := by
      simp [lowerChar, hu]
    have htn : (lowerChar c).toNat = c.toNat + 32 := by
      rw [hlc]
      exact toNat_ofNat_small (by omega)
    have hal : allowedChar (lowerChar c) = true := by
      simp only [allowedChar, isAsciiLower, Bool.or_eq_true, Bool.and_eq_true,
        decide_eq_true_eq]
      exact Or.inl (Or.inl (by omega))
    rw [replaceDisallowed_fix hal]
    intro he
    rw [he] at htn
    rw [hdash] at htn
    omega
  · -- digit: fixed, allowed, not a dash
    have hal : allowedChar c = true := by
      simp only [allowedChar, isAsciiDigit, Bool.or_eq_true, Bool.and_eq_true,
        decide_eq_true_eq]
      exact Or.inl (Or.inr h)
    rw [lowerChar_fix hal, replaceDisallowed_fix hal]
    intro he
    rw [he] at h
    omega

/-! ## Destutter lemmas for collapseDashes -/

theorem mem_destutter'_of_ne_dash :
    ∀ (l : List Char) (a c : Char), c ∈ l → c ≠ '-' → c ∈ List.destutter' dashOk a l := by
  intro l
  induction l with
  | nil => intro a c h; simp at h
  | cons b t ih =>
    intro a c h hc
    by_cases hR : dashOk a b
    · rw [List.destutter'_cons_pos _ hR]
      rcases List.mem_cons.mp h with rfl | h
      · exact List.mem_cons_of_mem _ (List.mem_destutter' _ _ _)
      · exact List.mem_cons_of_mem _ (ih b c h hc)
    · rw [List.destutter'_cons_neg _ hR]
      rcases List.mem_cons.mp h with rfl | h
      · exfalso
        apply hc
        have : a = '-' ∧ c = '-' := by
          by_contra hcon
          exact hR hcon
        exact this.2
      · exact ih a c h hc

theorem mem_collapseDashes_of_ne_dash {l : List Char} {c : Char}
    (h : c ∈ l) (hc : c ≠ '-') : c ∈ collapseDashes l := by
  unfold collapseDashes
  cases l with
  | nil => simp at h
  | cons a t =>
    rw [List.destutter_cons']
    rcases List.mem_cons.mp h with rfl | h
    · exact List.mem_destutter' _ _ _
    · exact mem_destutter'_of_ne_dash t a c h hc

/-! ## Structural facts about sanitize_name -/

theorem sanitize_name_allowed {x : List Char} :
    ∀ c ∈ sanitize_name x, allowedChar c = true := by
  intro c hc
  unfold sanitize_name at hc
  have h1 := mem_of_mem_stripBoth (List.mem_of_mem_take hc)
  have h2 : c ∈ (x.map lowerChar).map replaceDisallowed := by
    unfold collapseDashes at h1
    exact (List.destutter_sublist _ _).subset h1
  rcases List.mem_map.mp h2 with ⟨d, _, rfl⟩
  exact allowedChar_replaceDisallowed d

theorem sanitize_name_chain' {x : List Char} : (sanitize_name x).Chain' dashOk := by
  unfold sanitize_name
  exact (chain'_stripBoth (List.destutter_is_chain' _ _)).take _

theorem sanitize_name_length {x : List Char} : (sanitize_name x).length ≤ 63 := by
  unfold sanitize_name
  rw [List.length_take]
  exact Nat.min_le_left _ _

theorem sanitize_name_head {x : List Char} {c : Char}
    (h : (sanitize_name x).head? = some c) : c ≠ '-' := by
  unfold sanitize_name at h
  rw [head?_take_pos (by omega)] at h
  have := head?_stripBoth_false h
  simpa using this

theorem sanitize_name_ne_nil {x : List Char} (h : x.any isAsciiAlnum = true) :
    sanitize_name x ≠ [] := by
  rcases List.any_eq_true.mp h with ⟨c, hc, hcal⟩
  have hd : replaceDisallowed (lowerChar c) ≠ '-' := alnum_survives hcal
  have hmem : replaceDisallowed (lowerChar c) ∈ (x.map lowerChar).map replaceDisallowed :=
    List.mem_map_of_mem _ (List.mem_map_of_mem _ hc)
  have hcol : replaceDisallowed (lowerChar c) ∈
      collapseDashes ((x.map lowerChar).map replaceDisallowed) :=
    mem_collapseDashes_of_ne_dash hmem hd
  have hstrip : replaceDisallowed (lowerChar c) ∈
      stripBoth (fun a => a == '-') (collapseDashes ((x.map lowerChar).map replaceDisallowed)) :=
    mem_stripBoth_of_not hcol (by simpa using hd)
  unfold sanitize_name
  exact take_ne_nil_of_ne_nil (fun he => by rw [he] at hstrip; cases hstrip) (by omega)

/-- A string that is already in sanitized shape (allowed characters, no
double dash, no dash at either end, length at most 63) is a fixed point
of `sanitize_name`. -/
theorem sanitize_name_fixed {y : List Char}
    (hall : ∀ c ∈ y, allowedChar c = true)
    (hchain : y.Chain' dashOk)
    (hhead : ∀ c, y.head? = some c → c ≠ '-')
    (hlast : ∀ c, y.getLast? = some c → c ≠ '-')
    (hlen : y.length ≤ 63) :
    sanitize_name y = y := by
  unfold sanitize_name
  have h1 : y.map lowerChar = y :=
    map_eq_self_of_fix (fun c hc => lowerChar_fix (hall c hc))
  have h2 : y.map replaceDisallowed = y :=
    map_eq_self_of_fix (fun c hc => replaceDisallowed_fix (hall c hc))
  rw [h1, h2]
  have h3 : collapseDashes y = y := List.destutter_of_chain' _ _ hchain
  rw [h3]
  have h4 : stripBoth (fun c => c == '-') y = y := by
    apply stripBoth_eq_self
    · intro c hc
      simpa using hhead c hc
    · intro c hc
      simpa using hlast c hc
  rw [h4]
  exact List.take_of_length_le hlen

/-! ## C1 -/

/-- C1 counterexample: the 64-character input of 62 `a`s, a dash, and a
`b` is non-empty and contains alphanumeric characters, yet `sanitize_name`
returns a string whose last character is `'-'` (the truncation to 63
characters cuts right after a hyphen), and `sanitize_name` is not
idempotent on it: re-sanitizing strips the trailing hyphen. -/
theorem sanitize_name_cex :
    (List.replicate 62 'a' ++ ['-', 'b']).any isAsciiAlnum = true ∧
    (sanitize_name (List.replicate 62 'a' ++ ['-', 'b'])).getLast? = some '-' ∧
    sanitize_name (sanitize_name (List.replicate 62 'a' ++ ['-', 'b'])) ≠
      sanitize_name (List.replicate 62 'a' ++ ['-', 'b']) := by
  decide

/-- C1 (amended): for every input containing at least one ASCII
alphanumeric character, `sanitize_name` returns a non-empty string over
`[a-z0-9-]` of length at most 63 with no leading `'-'` and no duplicate
`'-'`; a trailing `'-'` can appear only when the truncation to 63
characters cuts immediately after a hyphen, and whenever the result does
not end in `'-'`, `sanitize_name (sanitize_name x) = sanitize_name x`. -/
theorem sanitize_name_spec (x : List Char) (halnum : x.any isAsciiAlnum = true) :
    sanitize_name x ≠ [] ∧
    (∀ c ∈ sanitize_name x, allowedChar c = true) ∧
    (sanitize_name x).length ≤ 63 ∧
    (∀ c, (sanitize_name x).head? = some c → c ≠ '-') ∧
    (sanitize_name x).Chain' dashOk ∧
    ((sanitize_name x).getLast? ≠ some '-' →
      sanitize_name (sanitize_name x) = sanitize_name x) := by
  refine ⟨sanitize_name_ne_nil halnum, sanitize_name_allowed, sanitize_name_length,
    fun c hc => sanitize_name_head hc, sanitize_name_chain', fun hlast => ?_⟩
  apply sanitize_name_fixed sanitize_name_allowed sanitize_name_chain'
    (fun c hc => sanitize_name_head hc) ?_ sanitize_name_length
  intro c hc he
  subst he
  exact hlast hc

/-- C1 witness: the amended theorem applied to the concrete input
"Hello World!". -/
theorem sanitize_name_spec_witness :
    sanitize_name "Hello World!".toList ≠ [] ∧
    sanitize_name (sanitize_name "Hello World!".toList) =
      sanitize_name "Hello World!".toList :=
  ⟨(sanitize_name_spec "Hello World!".toList (by decide)).1,
   (sanitize_name_spec "Hello World!".toList (by decide)).2.2.2.2.2 (by decide)⟩

/-! ## C2 -/

/-- C2: port resolution.  A port parsed from the Dockerfile `EXPOSE`
directive is used regardless of app type (e.g. `EXPOSE 4000` resolves to
4000 for every type); when no `EXPOSE` port is found the port is 3000 for
nodejs or nextjs, 8000 for python, and 80 for static or any other type. -/
theorem resolve_port_spec :
    (∀ df t p, extract_port_from_dockerfile df = some p → resolve_port df t = p) ∧
    (∀ t, resolve_port (some "FROM node\nEXPOSE 4000\nCMD start".toList) t = 4000) ∧
    (∀ df t, extract_port_from_dockerfile df = none → resolve_port df t = default_port t) ∧
    (default_port "nodejs".toList = 3000 ∧ default_port "nextjs".toList = 3000 ∧
      default_port "python".toList = 8000 ∧ default_port "static".toList = 80) ∧
    (∀ t, t ≠ "nodejs".toList → t ≠ "nextjs".toList → t ≠ "python".toList →
      default_port t = 80) := by
  refine ⟨?_, ?_, ?_, by decide, ?_⟩
  · intro df t p h
    unfold resolve_port
    rw [h]
  · intro t
    have h : extract_port_from_dockerfile
        (some "FROM node\nEXPOSE 4000\nCMD start".toList) = some 4000 := by decide
    unfold resolve_port
    rw [h]
  · intro df t h
    unfold resolve_port
    rw [h]
  · intro t h1 h2 h3
    unfold default_port
    rw [if_neg (fun hc => hc.elim h1 h2), if_neg h3]

/-- C2 witness: the port theorem applied at concrete inputs. -/
theorem resolve_port_spec_witness :
    resolve_port (some "EXPOSE 80".toList) "python".toList = 80 ∧
    resolve_port none "static".toList = default_port "static".toList ∧
    default_port "ruby".toList = 80 :=
  ⟨resolve_port_spec.1 (some "EXPOSE 80".toList) "python".toList 80 (by decide),
   resolve_port_spec.2.2.1 none "static".toList (by decide),
   resolve_port_spec.2.2.2.2 "ruby".toList (by decide) (by decide) (by decide)⟩

/-! ## C9 -/

/-- C9: `detect_app_type` is total over directory oracles and checks its
marker files in fixed priority order: nodejs whenever package.json exists
(even if the python or static markers also exist), otherwise python when
requirements.txt or pyproject.toml exists, otherwise static when
index.html exists, otherwise unknown. -/
theorem detect_app_type_spec :
    ∀ hasFile : List Char → Bool,
      (hasFile "package.json".toList = true →
        detect_app_type hasFile = "nodejs".toList) ∧
      (hasFile "package.json".toList = false →
        (hasFile "requirements.txt".toList || hasFile "pyproject.toml".toList) = true →
        detect_app_type hasFile = "python".toList) ∧
      (hasFile "package.json".toList = false →
        hasFile "requirements.txt".toList = false →
        hasFile "pyproject.toml".toList = false →
        hasFile "index.html".toList = true →
        detect_app_type hasFile = "static".toList) ∧
      (hasFile "package.json".toList = false →
        hasFile "requirements.txt".toList = false →
        hasFile "pyproject.toml".toList = false →
        hasFile "index.html".toList = false →
        detect_app_type hasFile = "unknown".toList) := by
  intro f
  refine ⟨?_, ?_, ?_, ?_⟩
  · intro h
    unfold detect_app_type
    rw [if_pos h]
  · intro h1 h2
    unfold detect_app_type
    rw [if_neg (by rw [h1]; simp), if_pos h2]
  · intro h1 h2 h3 h4
    unfold detect_app_type
    rw [if_neg (by rw [h1]; simp), if_neg (by rw [h2, h3]; simp), if_pos h4]
  · intro h1 h2 h3 h4
    unfold detect_app_type
    rw [if_neg (by rw [h1]; simp), if_neg (by rw [h2, h3]; simp), if_neg (by rw [h4]; simp)]

/-- C9 witness: a directory carrying all four markers is detected as
nodejs (priority), one carrying only pyproject.toml as python. -/
theorem detect_app_type_spec_witness :
    detect_app_type (fun _ => true) = "nodejs".toList ∧
    detect_app_type (fun f => f == "pyproject.toml".toList) = "python".toList :=
  ⟨(detect_app_type_spec (fun _ => true)).1 rfl,
   (detect_app_type_spec (fun f => f == "pyproject.toml".toList)).2.1 (by decide) (by decide)⟩

/-! ## Apply-loop lemmas (C4, C5) -/

theorem applyLoop_attempted_take (ok : K8sResource → Bool) :
    ∀ cmds : List (K8sResource × Bool), ∃ n,
      (applyLoop ok cmds).attempted = (cmds.map Prod.fst).take n := by
  intro cmds
  induction cmds with
  | nil => exact ⟨0, rfl⟩
  | cons rc rest ih =>
    obtain ⟨r, check⟩ := rc
    by_cases h : (!ok r && check) = true
    · exact ⟨1, by simp [applyLoop, h]⟩
    · obtain ⟨n, hn⟩ := ih
      exact ⟨n + 1, by simp [applyLoop, h, hn]⟩

theorem applyLoop_aborted_none_iff (ok : K8sResource → Bool) :
    ∀ cmds : List (K8sResource × Bool),
      ((applyLoop ok cmds).aborted = none ↔
        ∀ rc ∈ cmds, rc.2 = true → ok rc.1 = true) := by
  intro cmds
  induction cmds with
  | nil => simp [applyLoop]
  | cons rc rest ih =>
    obtain ⟨r, check⟩ := rc
    by_cases h : (!ok r && check) = true
    · have hok : ok r = false ∧ check = true := by simpa using h
      apply iff_of_false
      · simp [applyLoop, h]
      · intro hall
        have := hall (r, check) (List.mem_cons_self _ _) hok.2
        simp [hok.1] at this
    · have hcons : (applyLoop ok ((r, check) :: rest)).aborted =
          (applyLoop ok rest).aborted := by
        simp [applyLoop, h]
      rw [hcons, ih]
      constructor
      · intro hall rc hm hc2
        rcases List.mem_cons.mp hm with rfl | hm
        · have hne : ¬(ok r = false) := by
            intro hf
            exact h (by simp [hf]; exact hc2)
          cases hb : ok r
          · exact absurd hb hne
          · rfl
        · exact hall rc hm hc2
      · intro hall rc hm hc2
        exact hall rc (List.mem_cons_of_mem _ hm) hc2

theorem applyLoop_attempted_of_none (ok : K8sResource → Bool) :
    ∀ cmds : List (K8sResource × Bool), (applyLoop ok cmds).aborted = none →
      (applyLoop ok cmds).attempted = cmds.map Prod.fst := by
  intro cmds
  induction cmds with
  | nil => intro _; rfl
  | cons rc rest ih =>
    obtain ⟨r, check⟩ := rc
    intro hnone
    by_cases h : (!ok r && check) = true
    · simp [applyLoop, h] at hnone
    · have hr := ih (by simpa [applyLoop, h] using hnone)
      simp [applyLoop, h, hr]

theorem required_mem :
    ∀ r : K8sResource, r ≠ K8sResource.HorizontalPodAutoscaler →
      (r, true) ∈ apply_commands := by
  intro r hr
  cases r
  case HorizontalPodAutoscaler => exact absurd rfl hr
  all_goals decide

theorem mem_required_ne :
    ∀ rc ∈ apply_commands, rc.2 = true →
      rc.1 ≠ K8sResource.HorizontalPodAutoscaler := by
  decide

/-! ## C4 -/

/-- C4: in every deployment the manifests are applied in the fixed order
Namespace, ResourceQuota, LimitRange, Deployment, Service, Ingress,
HorizontalPodAutoscaler, NetworkPolicy: whatever the per-resource apply
outcomes, the attempted sequence is a prefix (`take n`) of this order —
so the namespace precedes quota/limits, which precede
deployment/service/ingress, which precede hpa and network-policy, in
every applied sequence — and when every apply succeeds the full order is
applied. -/
theorem apply_order_spec :
    (∀ ok : K8sResource → Bool, ∃ n, (applyLoop ok apply_commands).attempted =
      ([.Namespace, .ResourceQuota, .LimitRange, .Deployment, .Service, .Ingress,
        .HorizontalPodAutoscaler, .NetworkPolicy] : List K8sResource).take n) ∧
    (applyLoop (fun _ => true) apply_commands).attempted =
      [.Namespace, .ResourceQuota, .LimitRange, .Deployment, .Service, .Ingress,
       .HorizontalPodAutoscaler, .NetworkPolicy] := by
  constructor
  · intro ok
    have h := applyLoop_attempted_take ok apply_commands
    have he : apply_commands.map Prod.fst =
        ([.Namespace, .ResourceQuota, .LimitRange, .Deployment, .Service, .Ingress,
          .HorizontalPodAutoscaler, .NetworkPolicy] : List K8sResource) := by decide
    rwa [he] at h
  · decide

/-! ## C5 -/

/-- C5: during manifest apply, a failure of any required resource
(Namespace, ResourceQuota, LimitRange, Deployment, Service, Ingress or
NetworkPolicy) aborts the loop, and an abort surfaces from
`deploy_to_k8s` as a manifestApplyFailed error; a failure of the
HorizontalPodAutoscaler alone is only warned about and ignored: no abort
is reported, all eight manifests are attempted, and the deployment
proceeds. -/
theorem apply_failure_spec :
    ∀ ok : K8sResource → Bool,
      ((∃ r, r ≠ K8sResource.HorizontalPodAutoscaler ∧ ok r = false) →
        (applyLoop ok apply_commands).aborted ≠ none) ∧
      ((∀ r, r ≠ K8sResource.HorizontalPodAutoscaler → ok r = true) →
        (applyLoop ok apply_commands).aborted = none ∧
        (applyLoop ok apply_commands).attempted = manifest_order) ∧
      (∀ name tag t df env (c : ClusterState) r,
        (applyLoop c.applyOk apply_commands).aborted = some r →
        deploy_to_k8s name tag t df env c = .error (.manifestApplyFailed r)) := by
  intro ok
  refine ⟨?_, ?_, ?_⟩
  · rintro ⟨r, hne, hok⟩ hnone
    rw [applyLoop_aborted_none_iff] at hnone
    have := hnone (r, true) (required_mem r hne) rfl
    simp [hok] at this
  · intro hall
    have hnone : (applyLoop ok apply_commands).aborted = none :=
      (applyLoop_aborted_none_iff ok apply_commands).mpr
        (fun rc hm hc2 => hall rc.1 (mem_required_ne rc hm hc2))
    exact ⟨hnone, applyLoop_attempted_of_none ok apply_commands hnone⟩
  · intro name tag t df env c r hsome
    unfold deploy_to_k8s
    rw [hsome]

/-- C5 witness: a cluster failing only the autoscaler apply reports no
abort and attempts all eight manifests; a cluster failing every apply
aborts. -/
theorem apply_failure_spec_witness :
    (applyLoop (fun r => decide (r ≠ K8sResource.HorizontalPodAutoscaler))
        apply_commands).aborted = none ∧
    (applyLoop (fun r => decide (r ≠ K8sResource.HorizontalPodAutoscaler))
        apply_commands).attempted = manifest_order ∧
    (applyLoop (fun _ => false) apply_commands).aborted ≠ none :=
  ⟨((apply_failure_spec _).2.1 (fun r hr => by simpa using hr)).1,
   ((apply_failure_spec _).2.1 (fun r hr => by simpa using hr)).2,
   (apply_failure_spec (fun _ => false)).1 ⟨.Namespace, by decide, rfl⟩⟩

/-! ## Wait-loop lemmas (C6) -/

theorem waitLoop_true_iff (obs : Nat → Option (Nat × Nat)) :
    ∀ (fuel i : Nat), (waitLoop obs i fuel = true ↔
      ∃ j, j < fuel ∧ readyCond (obs (i + j)) = true) := by
  intro fuel
  induction fuel with
  | zero => intro i; simp [waitLoop]
  | succ m ih =>
    intro i
    by_cases h : readyCond (obs i) = true
    · apply iff_of_true
      · simp [waitLoop, h]
      · exact ⟨0, Nat.succ_pos m, by simpa using h⟩
    · have hstep : waitLoop obs i (m + 1) = waitLoop obs (i + 1) m := by
        simp [waitLoop, h]
      rw [hstep, ih (i + 1)]
      constructor
      · rintro ⟨j, hj, hc⟩
        exact ⟨j + 1, by omega, by rwa [show i + (j + 1) = i + 1 + j by omega]⟩
      · rintro ⟨j, hj, hc⟩
        cases j with
        | zero => rw [Nat.add_zero] at hc; exact absurd hc h
        | succ k =>
          exact ⟨k, by omega, by rwa [show i + 1 + k = i + (k + 1) by omega]⟩

theorem readyCond_iff (o : Option (Nat × Nat)) :
    readyCond o = true ↔
      ∃ ready desired, o = some (ready, desired) ∧ desired ≤ ready ∧ 1 ≤ ready := by
  cases o with
  | none =>
    apply iff_of_false
    · simp [readyCond]
    · rintro ⟨r, d, h, -⟩; cases h
  | some rd =>
    obtain ⟨r, d⟩ := rd
    by_cases h : d ≤ r ∧ 1 ≤ r
    · apply iff_of_true
      · simp [readyCond, h]
      · exact ⟨r, d, rfl, h⟩
    · apply iff_of_false
      · simp [readyCond, h]
      · rintro ⟨r', d', heq, h1, h2⟩
        obtain ⟨rfl, rfl⟩ : r = r' ∧ d = d' := by
          simpa [Prod.ext_iff, eq_comm] using heq
        exact h ⟨h1, h2⟩

/-! ## C6 -/

/-- C6: readiness polling runs at the fixed 5-second interval within the
180-second timeout, giving 36 polls; `wait_for_deployment` returns true
iff some poll in the window observes `readyReplicas ≥ desiredReplicas`
with `readyReplicas ≥ 1` (so it reports ready as soon as such a poll is
observed); and when no poll does, it returns false and `deploy_to_k8s`
fails with an error carrying the pod diagnostics together with the full
deployment status dump. -/
theorem wait_for_deployment_spec :
    pollInterval = 5 ∧ waitTimeoutSecs = 180 ∧ maxPolls = 36 ∧
    (∀ obs, wait_for_deployment obs = true ↔
      ∃ j, j < maxPolls ∧ ∃ ready desired, obs j = some (ready, desired) ∧
        desired ≤ ready ∧ 1 ≤ ready) ∧
    (∀ name tag t df env (c : ClusterState),
      (applyLoop c.applyOk apply_commands).aborted = none →
      wait_for_deployment c.obs = false →
      deploy_to_k8s name tag t df env c =
        .error (.deploymentNotReady (get_pod_errors c.pods) c.statusDump)) := by
  refine ⟨rfl, rfl, by decide, ?_, ?_⟩
  · intro obs
    unfold wait_for_deployment
    rw [waitLoop_true_iff]
    constructor
    · rintro ⟨j, hj, hc⟩
      rw [Nat.zero_add] at hc
      exact ⟨j, hj, (readyCond_iff _).mp hc⟩
    · rintro ⟨j, hj, hc⟩
      exact ⟨j, hj, by rw [Nat.zero_add]; exact (readyCond_iff _).mpr hc⟩
  · intro name tag t df env c hnone hwait
    unfold deploy_to_k8s
    rw [hnone, hwait]
    rfl

/-- C6 witness: a cluster that reports 2/2 ready replicas at the first
poll is ready; a healthy-apply cluster whose polls never answer yields
the deploymentNotReady error with the diagnostics and the dump. -/
theorem wait_for_deployment_spec_witness :
    wait_for_deployment (fun _ => some (2, 2)) = true ∧
    deploy_to_k8s "app".toList "tag".toList "python".toList none none
      ⟨fun _ => true, fun _ => none, [], "dump".toList⟩ =
      .error (.deploymentNotReady [] "dump".toList) := by
  constructor
  · exact (wait_for_deployment_spec.2.2.2.1 _).mpr
      ⟨0, by decide, 2, 2, rfl, Nat.le_refl 2, by decide⟩
  · exact wait_for_deployment_spec.2.2.2.2 _ _ _ _ _ _ (by decide) (by decide)

/-! ## Env-parsing lemmas (C3, C10) -/

theorem foldl_append_filterMap :
    ∀ (l : List (List Char)) (acc : List (List Char × List Char)),
      l.foldl (fun acc raw =>
        match parse_env_line raw with
        | some kv => acc ++ [kv]
        | none => acc) acc = acc ++ l.filterMap parse_env_line := by
  intro l
  induction l with
  | nil => intro acc; simp
  | cons x t ih =>
    intro acc
    cases hf : parse_env_line x with
    | some y =>
      simp only [List.foldl_cons, hf, List.filterMap_cons, ih (acc ++ [y])]
      simp
    | none =>
      simp only [List.foldl_cons, hf, List.filterMap_cons, ih acc]

theorem splitFirst_append (c : Char) :
    ∀ (k : List Char), c ∉ k → ∀ v, splitFirst c (k ++ c :: v) = some (k, v) := by
  intro k
  induction k with
  | nil =>
    intro _ v
    simp [splitFirst]
  | cons x t ih =>
    intro hnot v
    have hx : ¬(x = c) := fun he => hnot (he ▸ List.mem_cons_self x t)
    have ht := ih (fun hm => hnot (List.mem_cons_of_mem _ hm)) v
    simp only [List.cons_append, splitFirst, if_neg hx, List.append_eq, ht]

/-! ## C3 -/

/-- C3: environment parsing on the example input yields exactly the
ordered list [(FOO,bar),(EMPTY_KEY_ONLY,1)]; in general the result is the
in-order `filterMap` of the per-line parser over the newline-split lines,
and a line contributes nothing when it is blank after stripping, starts
with `'#'`, lacks `'='`, or splits into an empty key or an empty
quote-trimmed value. -/
theorem extract_env_vars_spec :
    extract_env_vars "FOO=bar\n# comment\nBAZ=\nEMPTY_KEY_ONLY=1\n=novalue".toList =
      [("FOO".toList, "bar".toList), ("EMPTY_KEY_ONLY".toList, "1".toList)] ∧
    (∀ s, extract_env_vars s = (s.splitOn '\n').filterMap parse_env_line) ∧
    (∀ raw, pyStrip raw = [] → parse_env_line raw = none) ∧
    (∀ raw, (pyStrip raw).head? = some '#' → parse_env_line raw = none) ∧
    (∀ raw, '=' ∉ pyStrip raw → parse_env_line raw = none) ∧
    (∀ raw k v, splitFirst '=' (pyStrip raw) = some (k, v) →
      (pyStrip k = [] ∨ trim_value v = []) → parse_env_line raw = none) := by
  refine ⟨by decide, ?_, ?_, ?_, ?_, ?_⟩
  · intro s
    unfold extract_env_vars
    rw [foldl_append_filterMap]
    simp
  · intro raw h
    unfold parse_env_line
    rw [h]
    simp
  · intro raw h
    simp [parse_env_line, h]
  · intro raw h
    simp [parse_env_line, h]
  · intro raw k v h1 h2
    by_cases hc : pyStrip raw ≠ [] ∧ '=' ∈ pyStrip raw ∧ (pyStrip raw).head? ≠ some '#'
    · rcases h2 with h2 | h2 <;> simp [parse_env_line, hc, h1, h2]
    · simp [parse_env_line, hc]

/-- C3 witness: the skip rules applied to concrete lines. -/
theorem extract_env_vars_spec_witness :
    parse_env_line "   ".toList = none ∧
    parse_env_line "# FOO=bar".toList = none ∧
    parse_env_line "plain words".toList = none ∧
    parse_env_line "BAZ=".toList = none :=
  ⟨extract_env_vars_spec.2.2.1 "   ".toList (by decide),
   extract_env_vars_spec.2.2.2.1 "# FOO=bar".toList (by decide),
   extract_env_vars_spec.2.2.2.2.1 "plain words".toList (by decide),
   extract_env_vars_spec.2.2.2.2.2 "BAZ=".toList "BAZ".toList [] (by decide)
     (Or.inr rfl)⟩

/-! ## C10 -/

/-- C10: env lines split at the first `'='` only, so `A=B=C` yields key
`A` with value `B=C` (and in general a key without `'='` splits before an
arbitrary value, which may itself contain `'='`); value quote-trimming
strips all leading and trailing double quotes and then all leading and
trailing single quotes — repeated and unmatched quotes are removed, not
just one matched surrounding pair, and double quotes nested inside
single quotes survive. -/
theorem env_split_and_quote_trim_spec :
    extract_env_vars "A=B=C".toList = [("A".toList, "B=C".toList)] ∧
    (∀ k v, '=' ∉ k → splitFirst '=' (k ++ '=' :: v) = some (k, v)) ∧
    trim_value [dquote, dquote, 'x', dquote, dquote] = ['x'] ∧
    trim_value [dquote, 'x'] = ['x'] ∧
    trim_value [squote, dquote, 'x', dquote, squote] = [dquote, 'x', dquote] :=
  ⟨by decide, fun k v h => splitFirst_append '=' k h v, by decide, by decide, by decide⟩

/-- C10 witness: the first-split lemma applied to the line `A=B=C`. -/
theorem env_split_and_quote_trim_spec_witness :
    splitFirst '=' ("A".toList ++ '=' :: "B=C".toList) =
      some ("A".toList, "B=C".toList) :=
  env_split_and_quote_trim_spec.2.1 "A".toList "B=C".toList (by decide)

/-! ## C7 -/

/-- C7 counterexample: sanitizing "###" yields the empty string, yet no
AppNameInvalid failure occurs — `deploy_to_k8s` proceeds, builds its plan
with an empty app name and namespace "app-", and against a healthy
cluster even completes successfully with the degenerate URL
`http://.localhost`. -/
theorem deploy_empty_name_cex :
    sanitize_name "###".toList = [] ∧
    (deploy_plan "###".toList "python".toList none none).appName = [] ∧
    (deploy_plan "###".toList "python".toList none none).ns = "app-".toList ∧
    deploy_to_k8s "###".toList "tag".toList "python".toList none none
      ⟨fun _ => true, fun _ => some (1, 1), [], []⟩ = .ok "http://.localhost".toList := by
  decide

/-- C7 (amended): the code performs no validation of the sanitized name:
whenever sanitization yields the empty string, `deploy_to_k8s` proceeds
with an empty app name and namespace "app-", and with every required
apply succeeding and a ready poll observed it returns the URL
`http://.localhost` instead of failing with an AppNameInvalid error. -/
theorem deploy_empty_name_proceeds :
    ∀ (name t tag : List Char) (df env : Option (List Char)) (c : ClusterState),
      sanitize_name name = [] →
      (deploy_plan name t df env).appName = [] ∧
      (deploy_plan name t df env).ns = "app-".toList ∧
      ((∀ r, r ≠ K8sResource.HorizontalPodAutoscaler → c.applyOk r = true) →
        wait_for_deployment c.obs = true →
        deploy_to_k8s name tag t df env c = .ok "http://.localhost".toList) := by
  intro name t tag df env c hs
  refine ⟨by simp [deploy_plan, hs], by simp [deploy_plan, hs], ?_⟩
  intro hap hw
  have hnone : (applyLoop c.applyOk apply_commands).aborted = none :=
    (applyLoop_aborted_none_iff c.applyOk apply_commands).mpr
      (fun rc hm hc2 => hap rc.1 (mem_required_ne rc hm hc2))
  unfold deploy_to_k8s
  rw [hnone, hw]
  simp [deploy_plan, hs]

/-- C7 witness: the amended theorem applied to the concrete input "###"
on a healthy cluster. -/
theorem deploy_empty_name_proceeds_witness :
    (deploy_plan "###".toList "nodejs".toList none none).appName = [] ∧
    deploy_to_k8s "###".toList "img".toList "nodejs".toList none none
      ⟨fun _ => true, fun _ => some (3, 3), [], []⟩ = .ok "http://.localhost".toList :=
  ⟨(deploy_empty_name_proceeds "###".toList "nodejs".toList "img".toList none none
      ⟨fun _ => true, fun _ => some (3, 3), [], []⟩ (by decide)).1,
   (deploy_empty_name_proceeds "###".toList "nodejs".toList "img".toList none none
      ⟨fun _ => true, fun _ => some (3, 3), [], []⟩ (by decide)).2.2
     (fun r hr => rfl) (by decide)⟩

/-! ## C8 -/

/-- C8 counterexample: for appName "demo" the build succeeds with the tag
"gitdeploy/demo:latest", which is not "<namespace>/<appName>:latest":
the deployment namespace for "demo" is "app-demo", not "gitdeploy". -/
theorem build_image_tag_cex :
    build_docker_image "demo".toList .ok = .ok "gitdeploy/demo:latest".toList ∧
    app_namespace "demo".toList = "app-demo".toList ∧
    "gitdeploy/demo:latest".toList ≠
      app_namespace "demo".toList ++ "/".toList ++ "demo".toList ++ ":latest".toList := by
  decide

/-- C8 (amended): on success `build_docker_image` returns the tag
`gitdeploy/<appName>:latest` — a fixed "gitdeploy" repository prefix with
the unsanitized app name — which is unrelated to the deployment
namespace `"app-" + sanitize(appName)`. -/
theorem build_docker_image_tag :
    ∀ (name : List Char) (b : DockerBuildResult) (tag : List Char),
      build_docker_image name b = .ok tag →
      tag = "gitdeploy/".toList ++ name ++ ":latest".toList := by
  intro name b tag h
  cases b with
  | ok =>
    simp only [build_docker_image, Except.ok.injEq] at h
    rw [← h]
    rfl
  | timedOut => simp [build_docker_image] at h
  | failed stderr => simp [build_docker_image] at h

/-- C8 witness: the amended theorem applied to appName "demo". -/
theorem build_docker_image_tag_witness :
    ("gitdeploy/demo:latest".toList : List Char) =
      "gitdeploy/".toList ++ "demo".toList ++ ":latest".toList :=
  build_docker_image_tag "demo".toList .ok "gitdeploy/demo:latest".toList (by decide)
